import Mathlib

/-!
Verification of the composable VGG and Xception builders
(src/zoo/vgg/vgg_c.py and src/zoo/xception/xception_c.py).

The builders only assemble a static computation graph out of Keras layer
primitives, so we embed the graph shallowly: a `Graph` is the syntax tree of
layer applications produced by the Python code (each Keras layer call makes one
`Graph.layer` node, `Add()([x, shortcut])` makes a `Graph.add` node, and the
`Input` placeholder is the leaf).  The framework's eager shape validation is
modelled separately by `Graph.shape`, which computes the symbolic
`(None, h, w, c)` or `(None, n)` shape bottom-up and fails exactly where Keras
would raise (an unpadded window larger than its input, or an `Add` of two
differently shaped tensors).
-/

/-- Padding mode of a Keras convolution or pooling layer. -/
inductive Padding : Type
  | same
  | valid
deriving DecidableEq, Repr

/-- Activation argument of a Keras layer: `noAct` models Python `None`. -/
inductive Act : Type
  | noAct
  | relu
  | softmax
deriving DecidableEq, Repr

/-- Kernel-initializer values used by the repository (only one appears). -/
inductive KInit : Type
  | glorot_uniform
deriving DecidableEq, Repr

/-- The Keras layer constructors used by the two builders, with the
hyper-parameters the Python code passes (filters, kernel h/w, stride h/w,
padding, activation, kernel initializer). -/
inductive Layer : Type
  | conv2d (filters kh kw sh sw : Nat) (padding : Padding) (activation : Act) (kernel_initializer : KInit)
  | sepConv2d (filters kh kw sh sw : Nat) (padding : Padding) (kernel_initializer : KInit)
  | batchNorm
  | relu
  | maxPool2d (ph pw sh sw : Nat) (padding : Padding)
  | flatten
  | dense (units : Nat) (activation : Act) (kernel_initializer : KInit)
  | globalAvgPool2d
deriving DecidableEq, Repr

/-- The computation graph: `input h w c` is the `Input` placeholder,
`layer l g` is one layer call applied to `g`, and `add a b` is
`Add()([a, b])` (first list element first). -/
inductive Graph : Type
  | input (h w c : Nat)
  | layer (l : Layer) (g : Graph)
  | add (a b : Graph)
deriving DecidableEq, Repr

/-- Symbolic tensor shape with the batch dimension left implicit:
`t3 h w c` is `(None, h, w, c)`, `t1 n` is `(None, n)`. -/
inductive TShape : Type
  | t3 (h w c : Nat)
  | t1 (n : Nat)
deriving DecidableEq, Repr

/-- Shape errors the framework raises during graph construction. -/
inductive BErr : Type
  | negDimConv
  | negDimPool
  | addMismatch (a b : TShape)
  | rankErr
deriving DecidableEq, Repr

/-- Output extent of a same-padded window: ceiling of `n / s`. -/
def sameOut (n s : Nat) : Nat := (n + s - 1) / s

/-- Output extent of a valid-padded window of size `k` and stride `s`;
`none` when the window does not fit (Keras raises a negative-dimension
error there). -/
def validOut (n k s : Nat) : Option Nat :=
  if k ≤ n then some ((n - k) / s + 1) else none

/-- Output extents of a window layer, `none` when a valid-padded window is
larger than its input (Keras raises a negative-dimension error there). -/
def winOut (pad : Padding) (h w kh kw sh sw : Nat) : Option (Nat × Nat) :=
  match pad with
  | .same => some (sameOut h sh, sameOut w sw)
  | .valid =>
    match validOut h kh sh, validOut w kw sw with
    | some h2, some w2 => some (h2, w2)
    | _, _ => none

/-- Shape transformation of a single layer, mirroring Keras semantics for
the layers the repository uses. -/
def layerShape (l : Layer) (s : TShape) : Except BErr TShape :=
  match l with
  | .conv2d f kh kw sh sw pad _ _ =>
    match s with
    | .t3 h w _ =>
      match winOut pad h w kh kw sh sw with
      | some (h2, w2) => .ok (.t3 h2 w2 f)
      | none => .error .negDimConv
    | .t1 _ => .error .rankErr
  | .sepConv2d f kh kw sh sw pad _ =>
    match s with
    | .t3 h w _ =>
      match winOut pad h w kh kw sh sw with
      | some (h2, w2) => .ok (.t3 h2 w2 f)
      | none => .error .negDimConv
    | .t1 _ => .error .rankErr
  | .batchNorm => .ok s
  | .relu => .ok s
  | .maxPool2d ph pw sh sw pad =>
    match s with
    | .t3 h w c =>
      match winOut pad h w ph pw sh sw with
      | some (h2, w2) => .ok (.t3 h2 w2 c)
      | none => .error .negDimPool
    | .t1 _ => .error .rankErr
  | .flatten =>
    match s with
    | .t3 h w c => .ok (.t1 (h * w * c))
    | .t1 _ => .error .rankErr
  | .dense u _ _ =>
    match s with
    | .t1 _ => .ok (.t1 u)
    | .t3 _ _ _ => .error .rankErr
  | .globalAvgPool2d =>
    match s with
    | .t3 _ _ c => .ok (.t1 c)
    | .t1 _ => .error .rankErr

/-- Bottom-up shape computation over the graph, failing where layer
construction would raise. -/
def Graph.shape : Graph → Except BErr TShape
  | .input h w c => .ok (.t3 h w c)
  | .layer l g => (Graph.shape g).bind (layerShape l)
  | .add a b =>
    match Graph.shape a, Graph.shape b with
    | .ok s1, .ok s2 => if s1 = s2 then .ok s1 else .error (.addMismatch s1 s2)
    | .error e, _ => .error e
    | .ok _, .error e => .error e

/-- A finalized `Model(inputs, outputs)` pair. -/
structure KModel : Type where
  inputs : Graph
  outputs : Graph
deriving DecidableEq, Repr

namespace VGG

/-- Class attribute `init_weights = 'glorot_uniform'` of `VGG`. -/
def init_weights : KInit := .glorot_uniform

/-- Class attribute `groups` of `VGG`: per-variant list of
(number of conv layers, filter count) pairs; other keys are absent from the
dict (the constructor rejects them before the lookup). -/
def groupsTable : Nat → List (Nat × Nat)
  | 16 => [(1, 64), (2, 128), (3, 256), (3, 512), (3, 512)]
  | 19 => [(1, 64), (2, 128), (4, 256), (4, 256), (4, 256)]
  | _ => []

/-- `VGG.stem`: one 3x3 same-padded stride-1 ReLU convolution of width 64. -/
def stem (inputs : Graph) : Graph :=
  Graph.layer (.conv2d 64 3 3 1 1 .same .relu init_weights) inputs

/-- The `for n in range(n_layers)` loop body of `VGG.group`: `n_layers`
3x3 same-padded stride-1 ReLU convolutions of width `n_filters`. -/
def convStack (x : Graph) (n_layers n_filters : Nat) (iw : KInit) : Graph :=
  match n_layers with
  | 0 => x
  | k + 1 => Graph.layer (.conv2d n_filters 3 3 1 1 .same .relu iw) (convStack x k n_filters iw)

/-- `VGG.group`: a block of `n_layers` convolutions followed by a 2x2
stride-2 (valid-padded) max pool.  `init_weights=None` falls back to the
class attribute, as in the source. -/
def group (x : Graph) (n_layers n_filters : Nat) (init_weights : Option KInit) : Graph :=
  let iw := init_weights.getD VGG.init_weights
  let x := convStack x n_layers n_filters iw
  Graph.layer (.maxPool2d 2 2 2 2 .valid) x

/-- `VGG.learner`: one `group` per `(n_layers, n_filters)` pair, in list
order (the source's `for n_layers, n_filters in blocks` loop). -/
def learner (x : Graph) (blocks : List (Nat × Nat)) : Graph :=
  blocks.foldl (fun x p => group x p.1 p.2 none) x

/-- `VGG.classifier`: flatten, two 4096-wide ReLU dense layers, and a final
dense layer of width `n_classes` with softmax activation. -/
def classifier (x : Graph) (n_classes : Nat) : Graph :=
  let x := Graph.layer .flatten x
  let x := Graph.layer (.dense 4096 .relu init_weights) x
  let x := Graph.layer (.dense 4096 .relu init_weights) x
  Graph.layer (.dense n_classes .softmax init_weights) x

/-- The single error kind `VGG.__init__` raises:
`Exception("VGG: Invalid value for n_layers")`. -/
inductive BuildFail : Type
  | invalidNLayers
deriving DecidableEq, Repr

/-- `VGG.__init__`: reject `n_layers not in [16, 19]`, otherwise build
`Input -> stem -> learner -> classifier` and wrap it in a `Model`. -/
def initModel (n_layers : Nat) (input_shape : Nat × Nat × Nat) (n_classes : Nat) :
    Except BuildFail KModel :=
  if n_layers ∉ ([16, 19] : List Nat) then .error .invalidNLayers
  else
    let inputs := Graph.input input_shape.1 input_shape.2.1 input_shape.2.2
    let x := stem inputs
    let x := learner x (groupsTable n_layers)
    let outputs := classifier x n_classes
    .ok ⟨inputs, outputs⟩

/-- Number of graph nodes (placeholder, layer and merge nodes). -/
def nodeCount : Graph → Nat
  | .input _ _ _ => 1
  | .layer _ g => nodeCount g + 1
  | .add a b => nodeCount a + nodeCount b + 1

/-- `VGG.__init__` instrumented with a running count of constructed graph
nodes, mirroring the source's evaluation order: the `n_layers` guard runs
first, so the failing branch returns with the count untouched (not even the
`Input` placeholder is built), while the success branch adds every node of
the constructed graph. -/
def initCounted (n_layers : Nat) (input_shape : Nat × Nat × Nat) (n_classes : Nat)
    (nodes : Nat) : Except BuildFail KModel × Nat :=
  if n_layers ∉ ([16, 19] : List Nat) then (.error .invalidNLayers, nodes)
  else
    let inputs := Graph.input input_shape.1 input_shape.2.1 input_shape.2.2
    let x := stem inputs
    let x := learner x (groupsTable n_layers)
    let outputs := classifier x n_classes
    (.ok ⟨inputs, outputs⟩, nodes + nodeCount outputs)

end VGG

/-- A `VGG` instance: the class attribute `_model = None` overwritten by the
constructor; the `model` property reads and writes this single field. -/
structure VGGObj : Type where
  _model : Option KModel
deriving DecidableEq, Repr

/-- The `model` property getter of `VGG`. -/
def VGGObj.model_get (self : VGGObj) : Option KModel := self._model

/-- The `model` property setter of `VGG`: `self._model = _model`. -/
def VGGObj.model_set (self : VGGObj) (m : Option KModel) : VGGObj :=
  { self with _model := m }

/-- Constructing a `VGG` object: on success the new instance holds the
constructed model in `_model`. -/
def VGGObj.new (n_layers : Nat) (input_shape : Nat × Nat × Nat) (n_classes : Nat) :
    Except VGG.BuildFail VGGObj :=
  match VGG.initModel n_layers input_shape n_classes with
  | .ok m => .ok ⟨some m⟩
  | .error e => .error e

namespace Xception

/-- Class attribute `init_weights = 'glorot_uniform'` of `Xception`. -/
def init_weights : KInit := .glorot_uniform

/-- The nested `stem` function of `Xception.entryFlow`: a stride-2 then a
stride-1 3x3 convolution (both valid-padded, no activation argument), each
followed by batch normalization and ReLU. -/
def entryStem (inputs : Graph) (iw : KInit) : Graph :=
  let x := Graph.layer (.conv2d 32 3 3 2 2 .valid .noAct iw) inputs
  let x := Graph.layer .batchNorm x
  let x := Graph.layer .relu x
  let x := Graph.layer (.conv2d 64 3 3 1 1 .valid .noAct iw) x
  let x := Graph.layer .batchNorm x
  Graph.layer .relu x

/-- `Xception.projection_block`: shortcut = 1x1 stride-2 same-padded
convolution plus batch norm; main branch = two same-padded separable
convolutions (each with batch norm and ReLU) then a 3x3 stride-2 same-padded
max pool; merged by `Add()([x, shortcut])`. -/
def projection_block (x : Graph) (n_filters : Nat) (init_weights : Option KInit) : Graph :=
  let iw := init_weights.getD Xception.init_weights
  let shortcut := x
  let shortcut := Graph.layer (.conv2d n_filters 1 1 2 2 .same .noAct iw) shortcut
  let shortcut := Graph.layer .batchNorm shortcut
  let x := Graph.layer (.sepConv2d n_filters 3 3 1 1 .same iw) x
  let x := Graph.layer .batchNorm x
  let x := Graph.layer .relu x
  let x := Graph.layer (.sepConv2d n_filters 3 3 1 1 .same iw) x
  let x := Graph.layer .batchNorm x
  let x := Graph.layer .relu x
  let x := Graph.layer (.maxPool2d 3 3 2 2 .same) x
  Graph.add x shortcut

/-- `Xception.residual_block`: identity shortcut; main branch = three
same-padded separable convolutions (each with batch norm and ReLU); merged by
`Add()([x, shortcut])`. -/
def residual_block (x : Graph) (n_filters : Nat) (init_weights : Option KInit) : Graph :=
  let iw := init_weights.getD Xception.init_weights
  let shortcut := x
  let x := Graph.layer (.sepConv2d n_filters 3 3 1 1 .same iw) x
  let x := Graph.layer .batchNorm x
  let x := Graph.layer .relu x
  let x := Graph.layer (.sepConv2d n_filters 3 3 1 1 .same iw) x
  let x := Graph.layer .batchNorm x
  let x := Graph.layer .relu x
  let x := Graph.layer (.sepConv2d n_filters 3 3 1 1 .same iw) x
  let x := Graph.layer .batchNorm x
  let x := Graph.layer .relu x
  Graph.add x shortcut

/-- `Xception.entryFlow`: the stem, then one `projection_block` per entry of
`blocks`, in list order. -/
def entryFlow (inputs : Graph) (blocks : List Nat) (init_weights : Option KInit) : Graph :=
  let iw := init_weights.getD Xception.init_weights
  let x := entryStem inputs iw
  blocks.foldl (fun x f => projection_block x f (some iw)) x

/-- `Xception.middleFlow`: one `residual_block` per entry of `blocks`, in
list order. -/
def middleFlow (x : Graph) (blocks : List Nat) (init_weights : Option KInit) : Graph :=
  let iw := init_weights.getD Xception.init_weights
  blocks.foldl (fun x f => residual_block x f (some iw)) x

/-- `Xception.exitFlow`: projection shortcut (1x1 stride-2 conv of width
1024 plus batch norm) against a main branch of two separable convolutions
(728 with batch norm only, then 1024 with batch norm and ReLU) and a 3x3
stride-2 same-padded max pool; after the `Add`, two more separable
convolutions (1556 and 2048, each with batch norm and ReLU), then the nested
`classifier`: global average pooling and a softmax dense layer. -/
def exitFlow (x : Graph) (n_classes : Nat) (init_weights : Option KInit) : Graph :=
  let iw := init_weights.getD Xception.init_weights
  let shortcut := x
  let shortcut := Graph.layer (.conv2d 1024 1 1 2 2 .same .noAct iw) shortcut
  let shortcut := Graph.layer .batchNorm shortcut
  let x := Graph.layer (.sepConv2d 728 3 3 1 1 .same iw) x
  let x := Graph.layer .batchNorm x
  let x := Graph.layer (.sepConv2d 1024 3 3 1 1 .same iw) x
  let x := Graph.layer .batchNorm x
  let x := Graph.layer .relu x
  let x := Graph.layer (.maxPool2d 3 3 2 2 .same) x
  let x := Graph.add x shortcut
  let x := Graph.layer (.sepConv2d 1556 3 3 1 1 .same iw) x
  let x := Graph.layer .batchNorm x
  let x := Graph.layer .relu x
  let x := Graph.layer (.sepConv2d 2048 3 3 1 1 .same iw) x
  let x := Graph.layer .batchNorm x
  let x := Graph.layer .relu x
  let x := Graph.layer .globalAvgPool2d x
  Graph.layer (.dense n_classes .softmax iw) x

/-- `Xception.__init__`: `Input`, entry flow with widths `[128, 256, 728]`,
middle flow with eight widths of 728, exit flow, wrapped in a `Model`. -/
def initModel (input_shape : Nat × Nat × Nat) (n_classes : Nat) : KModel :=
  let inputs := Graph.input input_shape.1 input_shape.2.1 input_shape.2.2
  let x := entryFlow inputs [128, 256, 728] none
  let x := middleFlow x [728, 728, 728, 728, 728, 728, 728, 728] none
  let outputs := exitFlow x n_classes none
  ⟨inputs, outputs⟩

end Xception

/-- An `Xception` instance: the class attribute `_model = None` overwritten
by the constructor. -/
structure XceptionObj : Type where
  _model : Option KModel
deriving DecidableEq, Repr

/-- The `model` property getter of `Xception`. -/
def XceptionObj.model_get (self : XceptionObj) : Option KModel := self._model

/-- The `model` property setter of `Xception`.  Its body is
`return self._model`: it never assigns to `self._model` (the returned value
of a Python property setter is discarded), so the instance state is
unchanged and the written value `m` is dropped. -/
def XceptionObj.model_set (self : XceptionObj) (m : Option KModel) : XceptionObj :=
  self

/-- Constructing an `Xception` object. -/
def XceptionObj.new (input_shape : Nat × Nat × Nat) (n_classes : Nat) : XceptionObj :=
  ⟨some (Xception.initModel input_shape n_classes)⟩

/-! Graph observation functions used to state the claims.  The "spine" of a
graph is the path from the output node towards the input that always follows
a layer's argument and, at a merge, the first `Add` operand (the main
branch, since every `Add` in the sources is `Add()([x, shortcut])`). -/

/-- The outermost (final) layer of a graph, if any. -/
def headLayer : Graph → Option Layer
  | .layer l _ => some l
  | _ => none

/-- Layers along the spine, outermost first, stopping at the first merge
or at the input. -/
def layersToAdd : Graph → List Layer
  | .layer l g => l :: layersToAdd g
  | _ => []

/-- Layers along the spine, outermost first, following the main branch
through merges. -/
def layersOf : Graph → List Layer
  | .input _ _ _ => []
  | .layer l g => l :: layersOf g
  | .add a _ => layersOf a

/-- True when the graph is a pure chain: no merge node anywhere. -/
def branchFree : Graph → Bool
  | .input _ _ _ => true
  | .layer _ g => branchFree g
  | .add _ _ => false

/-- The two operands (main branch, shortcut branch) of the first merge
reached along the spine. -/
def firstAddChildren : Graph → Option (Graph × Graph)
  | .input _ _ _ => none
  | .layer _ g => firstAddChildren g
  | .add a b => some (a, b)

/-- Number of separable convolutions along the spine before the first merge
or input. -/
def sepsToAdd : Graph → Nat
  | .layer (.sepConv2d _ _ _ _ _ _ _) g => sepsToAdd g + 1
  | .layer _ g => sepsToAdd g
  | _ => 0

/-- Number of plain convolutions along the spine before the first merge or
input. -/
def convsToAdd : Graph → Nat
  | .layer (.conv2d _ _ _ _ _ _ _ _) g => convsToAdd g + 1
  | .layer _ g => convsToAdd g
  | _ => 0

/-- Number of merge nodes along the spine (through main branches). -/
def addCount : Graph → Nat
  | .input _ _ _ => 0
  | .layer _ g => addCount g
  | .add a _ => addCount a + 1

/-- Filter widths of the separable convolutions along the spine (through
main branches), outermost first. -/
def sepWidths : Graph → List Nat
  | .input _ _ _ => []
  | .layer (.sepConv2d f _ _ _ _ _ _) g => f :: sepWidths g
  | .layer _ g => sepWidths g
  | .add a _ => sepWidths a

/-- Each width of `l` repeated `k` times, in order. -/
def repWidths (k : Nat) (l : List Nat) : List Nat :=
  l.foldr (fun f acc => List.replicate k f ++ acc) []

/-- Spine layers contributed by one VGG `group` stage `(repeat, width)`:
the max pool outermost, then `repeat` convolutions of that width. -/
def stageLayers (p : Nat × Nat) : List Layer :=
  Layer.maxPool2d 2 2 2 2 .valid ::
    List.replicate p.1 (Layer.conv2d p.2 3 3 1 1 .same .relu VGG.init_weights)

/-- Spine layers of a whole VGG learner over `blocks`, outermost first:
the stages in reverse order since the last stage is outermost. -/
def stagesExpanded (blocks : List (Nat × Nat)) : List Layer :=
  blocks.foldl (fun acc p => stageLayers p ++ acc) []

/-- Shape of the result of a `VGG.learner` run over `blocks`, starting from
an input of shape `(None, h, w, c)`: each stage needs both spatial extents
to be at least 2 for its valid-padded 2x2 stride-2 pool, halves them, and
sets the channel count to its width (when it has at least one conv). -/
def stagesSem : List (Nat × Nat) → Nat → Nat → Nat → Except BErr TShape
  | [], h, w, c => .ok (.t3 h w c)
  | (r, f) :: rest, h, w, c =>
    let c2 := if r = 0 then c else f
    if 2 ≤ h ∧ 2 ≤ w then stagesSem rest (h / 2) (w / 2) c2
    else .error .negDimPool

/-- Extract the object from a successful `VGGObj` construction, with an
empty object as default. -/
def okOr (e : Except VGG.BuildFail VGGObj) : VGGObj :=
  match e with
  | .ok o => o
  | .error _ => ⟨none⟩

/-- Whether the merge node at the root has operands of equal (and defined)
shape, so that the elementwise `Add` is well formed. -/
def mergeShapeEq (g : Graph) : Prop :=
  match g with
  | .add a b => Graph.shape a = Graph.shape b
  | _ => False

/-! Helper lemmas about the shape semantics. -/

theorem exbind_ok {α β γ : Type} (x : α) (f : α → Except γ β) :
    (Except.ok x : Except γ α).bind f = f x := rfl

theorem exbind_err {α β γ : Type} (e : γ) (f : α → Except γ β) :
    (Except.error e : Except γ α).bind f = Except.error e := rfl

theorem shape_layer (l : Layer) (g : Graph) :
    Graph.shape (.layer l g) = (Graph.shape g).bind (layerShape l) := rfl

/-- A same-padded stride-1 3x3 convolution preserves the spatial extents. -/
theorem conv33_same (f h w c : Nat) (a : Act) (i : KInit) :
    layerShape (.conv2d f 3 3 1 1 .same a i) (.t3 h w c) = .ok (.t3 h w f) := by
  simp [layerShape, winOut, sameOut]

/-- A valid-padded 2x2 stride-2 max pool halves extents that are at least 2. -/
theorem pool22_ok (h w c : Nat) (hh : 2 ≤ h) (hw : 2 ≤ w) :
    layerShape (.maxPool2d 2 2 2 2 .valid) (.t3 h w c) = .ok (.t3 (h / 2) (w / 2) c) := by
  simp only [layerShape, winOut, validOut, if_pos hh, if_pos hw]
  have eh : (h - 2) / 2 + 1 = h / 2 := by omega
  have ew : (w - 2) / 2 + 1 = w / 2 := by omega
  rw [eh, ew]

/-- A valid-padded 2x2 max pool fails on an input with an extent below 2. -/
theorem pool22_err (h w c : Nat) (hb : ¬(2 ≤ h ∧ 2 ≤ w)) :
    layerShape (.maxPool2d 2 2 2 2 .valid) (.t3 h w c) = .error .negDimPool := by
  simp only [layerShape, winOut, validOut]
  by_cases hh : 2 ≤ h
  · have hw : ¬ 2 ≤ w := fun hw => hb ⟨hh, hw⟩
    simp [if_pos hh, if_neg hw]
  · by_cases hw : 2 ≤ w <;> simp [if_neg hh]

/-- The conv stack of a VGG group preserves the spatial extents and, when it
has at least one layer, sets the channel count to `f`. -/
theorem convStack_shape (r : Nat) (g : Graph) (h w c f : Nat) (i : KInit)
    (hg : Graph.shape g = .ok (.t3 h w c)) :
    Graph.shape (VGG.convStack g r f i) = .ok (.t3 h w (if r = 0 then c else f)) := by
  induction r with
  | zero => simpa [VGG.convStack]
  | succ k ih =>
    simp only [VGG.convStack, shape_layer, ih, exbind_ok, conv33_same]
    simp

/-- Error propagation through the conv stack. -/
theorem convStack_err (r : Nat) (g : Graph) (f : Nat) (i : KInit) (e : BErr)
    (hg : Graph.shape g = .error e) :
    Graph.shape (VGG.convStack g r f i) = .error e := by
  induction r with
  | zero => simpa [VGG.convStack]
  | succ k ih => simp only [VGG.convStack, shape_layer, ih, exbind_err]

/-- Shape behaviour of one VGG group: halve both extents when they are at
least 2, fail with a pool error otherwise. -/
theorem group_shape (g : Graph) (r f : Nat) (i : Option KInit) (h w c : Nat)
    (hg : Graph.shape g = .ok (.t3 h w c)) :
    Graph.shape (VGG.group g r f i) =
      if 2 ≤ h ∧ 2 ≤ w then .ok (.t3 (h / 2) (w / 2) (if r = 0 then c else f))
      else .error .negDimPool := by
  by_cases hc : 2 ≤ h ∧ 2 ≤ w
  · rw [if_pos hc]
    simp only [VGG.group, shape_layer, convStack_shape r g h w c f _ hg, exbind_ok,
      pool22_ok h w _ hc.1 hc.2]
  · rw [if_neg hc]
    simp only [VGG.group, shape_layer, convStack_shape r g h w c f _ hg, exbind_ok,
      pool22_err h w _ hc]

/-- Error propagation through one VGG group. -/
theorem group_err (g : Graph) (r f : Nat) (i : Option KInit) (e : BErr)
    (hg : Graph.shape g = .error e) :
    Graph.shape (VGG.group g r f i) = .error e := by
  simp only [VGG.group, shape_layer, convStack_err r g f _ e hg, exbind_err]

/-- Error propagation through the whole learner. -/
theorem learner_err (blocks : List (Nat × Nat)) (g : Graph) (e : BErr)
    (hg : Graph.shape g = .error e) :
    Graph.shape (VGG.learner g blocks) = .error e := by
  induction blocks generalizing g with
  | nil => simpa [VGG.learner]
  | cons p rest ih =>
    simp only [VGG.learner, List.foldl_cons] at ih ⊢
    exact ih _ (group_err g p.1 p.2 none e hg)

/-- The learner's shape is computed by `stagesSem` over its stage list. -/
theorem learner_shape (blocks : List (Nat × Nat)) (g : Graph) (h w c : Nat)
    (hg : Graph.shape g = .ok (.t3 h w c)) :
    Graph.shape (VGG.learner g blocks) = stagesSem blocks h w c := by
  induction blocks generalizing g h w c with
  | nil => simpa [VGG.learner, stagesSem]
  | cons p rest ih =>
    simp only [VGG.learner, List.foldl_cons] at ih ⊢
    by_cases hc : 2 ≤ h ∧ 2 ≤ w
    · have hgrp := group_shape g p.1 p.2 none h w c hg
      rw [if_pos hc] at hgrp
      rw [ih _ _ _ _ hgrp]
      simp only [stagesSem, if_pos hc]
    · have hgrp := group_shape g p.1 p.2 none h w c hg
      rw [if_neg hc] at hgrp
      have hprop := learner_err rest (VGG.group g p.1 p.2 none) _ hgrp
      simp only [VGG.learner] at hprop
      rw [hprop]
      simp only [stagesSem, if_neg hc]

/-- The classifier maps any 4D input shape to `(None, n_classes)`. -/
theorem classifier_ok (g : Graph) (n h w c : Nat)
    (hg : Graph.shape g = .ok (.t3 h w c)) :
    Graph.shape (VGG.classifier g n) = .ok (.t1 n) := by
  simp [VGG.classifier, shape_layer, hg, exbind_ok, layerShape]

/-- Error propagation through the classifier. -/
theorem classifier_err (g : Graph) (n : Nat) (e : BErr)
    (hg : Graph.shape g = .error e) :
    Graph.shape (VGG.classifier g n) = .error e := by
  simp [VGG.classifier, shape_layer, hg, exbind_err]

/-- Shape of the VGG stem output. -/
theorem stem_shape (h w c : Nat) :
    Graph.shape (VGG.stem (.input h w c)) = .ok (.t3 h w 64) := by
  simp only [VGG.stem, shape_layer, Graph.shape, exbind_ok, conv33_same]

/-- A same-padded stride-1 3x3 separable convolution preserves extents. -/
theorem sep33_same (f h w c : Nat) (i : KInit) :
    layerShape (.sepConv2d f 3 3 1 1 .same i) (.t3 h w c) = .ok (.t3 h w f) := by
  simp [layerShape, winOut, sameOut]

theorem bn_shape (s : TShape) : layerShape .batchNorm s = .ok s := rfl

theorem relu_shape (s : TShape) : layerShape .relu s = .ok s := rfl

/-- A same-padded 1x1 stride-2 convolution takes extents to their halves
rounded up. -/
theorem conv11_s2_same (f h w c : Nat) (a : Act) (i : KInit) :
    layerShape (.conv2d f 1 1 2 2 .same a i) (.t3 h w c) =
      .ok (.t3 ((h + 1) / 2) ((w + 1) / 2) f) := by
  simp only [layerShape, winOut, sameOut]
  have eh : h + 2 - 1 = h + 1 := by omega
  have ew : w + 2 - 1 = w + 1 := by omega
  rw [eh, ew]

/-- A same-padded 3x3 stride-2 max pool takes extents to their halves
rounded up. -/
theorem pool33_s2_same (h w c : Nat) :
    layerShape (.maxPool2d 3 3 2 2 .same) (.t3 h w c) =
      .ok (.t3 ((h + 1) / 2) ((w + 1) / 2) c) := by
  simp only [layerShape, winOut, sameOut]
  have eh : h + 2 - 1 = h + 1 := by omega
  have ew : w + 2 - 1 = w + 1 := by omega
  rw [eh, ew]

/-! Spine-observation lemmas for the Xception flows. -/

theorem addCount_projection (x : Graph) (f : Nat) (i : Option KInit) :
    addCount (Xception.projection_block x f i) = addCount x + 1 := rfl

theorem addCount_residual (x : Graph) (f : Nat) (i : Option KInit) :
    addCount (Xception.residual_block x f i) = addCount x + 1 := rfl

theorem sepWidths_projection (x : Graph) (f : Nat) (i : Option KInit) :
    sepWidths (Xception.projection_block x f i) = f :: f :: sepWidths x := rfl

theorem sepWidths_residual (x : Graph) (f : Nat) (i : Option KInit) :
    sepWidths (Xception.residual_block x f i) = f :: f :: f :: sepWidths x := rfl

theorem addCount_entryStem (g : Graph) (i : KInit) :
    addCount (Xception.entryStem g i) = addCount g := rfl

theorem sepWidths_entryStem (g : Graph) (i : KInit) :
    sepWidths (Xception.entryStem g i) = sepWidths g := rfl

theorem repWidths_foldr (k : Nat) (l acc : List Nat) :
    l.foldr (fun f a => List.replicate k f ++ a) acc = repWidths k l ++ acc := by
  induction l with
  | nil => simp [repWidths]
  | cons f rest ih => simp [repWidths, ih, List.append_assoc]

theorem repWidths_append (k : Nat) (l1 l2 : List Nat) :
    repWidths k (l1 ++ l2) = repWidths k l1 ++ repWidths k l2 := by
  simp only [repWidths, List.foldr_append]
  rw [repWidths_foldr]
  rfl

theorem addCount_projFold (blocks : List Nat) (g : Graph) (i : KInit) :
    addCount (blocks.foldl (fun x f => Xception.projection_block x f (some i)) g) =
      blocks.length + addCount g := by
  induction blocks generalizing g with
  | nil => simp
  | cons f rest ih =>
    simp only [List.foldl_cons, List.length_cons, ih, addCount_projection]
    omega

theorem addCount_resFold (blocks : List Nat) (g : Graph) (i : KInit) :
    addCount (blocks.foldl (fun x f => Xception.residual_block x f (some i)) g) =
      blocks.length + addCount g := by
  induction blocks generalizing g with
  | nil => simp
  | cons f rest ih =>
    simp only [List.foldl_cons, List.length_cons, ih, addCount_residual]
    omega

theorem sepWidths_projFold (blocks : List Nat) (g : Graph) (i : KInit) :
    sepWidths (blocks.foldl (fun x f => Xception.projection_block x f (some i)) g) =
      repWidths 2 blocks.reverse ++ sepWidths g := by
  induction blocks generalizing g with
  | nil => simp [repWidths]
  | cons f rest ih =>
    simp only [List.foldl_cons, List.reverse_cons, ih, sepWidths_projection,
      repWidths_append, List.append_assoc]
    rfl

theorem sepWidths_resFold (blocks : List Nat) (g : Graph) (i : KInit) :
    sepWidths (blocks.foldl (fun x f => Xception.residual_block x f (some i)) g) =
      repWidths 3 blocks.reverse ++ sepWidths g := by
  induction blocks generalizing g with
  | nil => simp [repWidths]
  | cons f rest ih =>
    simp only [List.foldl_cons, List.reverse_cons, ih, sepWidths_residual,
      repWidths_append, List.append_assoc]
    rfl

/-! Spine-observation lemmas for the VGG learner. -/

theorem layersOf_convStack (r : Nat) (g : Graph) (f : Nat) (i : KInit) :
    layersOf (VGG.convStack g r f i) =
      List.replicate r (.conv2d f 3 3 1 1 .same .relu i) ++ layersOf g := by
  induction r with
  | zero => simp [VGG.convStack]
  | succ k ih => simp [VGG.convStack, layersOf, ih, List.replicate_succ]

theorem layersOf_group (g : Graph) (r f : Nat) :
    layersOf (VGG.group g r f none) = stageLayers (r, f) ++ layersOf g := by
  simp [VGG.group, layersOf, stageLayers, layersOf_convStack, Option.getD]

theorem stagesExpanded_acc (blocks : List (Nat × Nat)) (acc : List Layer) :
    blocks.foldl (fun acc p => stageLayers p ++ acc) acc = stagesExpanded blocks ++ acc := by
  induction blocks generalizing acc with
  | nil => simp [stagesExpanded]
  | cons p rest ih =>
    rw [stagesExpanded, List.foldl_cons, List.foldl_cons, ih, ih (stageLayers p ++ [])]
    simp [List.append_assoc]

theorem layersOf_learner (blocks : List (Nat × Nat)) (g : Graph) :
    layersOf (VGG.learner g blocks) = stagesExpanded blocks ++ layersOf g := by
  induction blocks generalizing g with
  | nil => simp [VGG.learner, stagesExpanded]
  | cons p rest ih =>
    simp only [VGG.learner, List.foldl_cons] at ih ⊢
    rw [ih, layersOf_group]
    have hx : stagesExpanded (p :: rest) = stagesExpanded rest ++ stageLayers p := by
      rw [stagesExpanded, List.foldl_cons, stagesExpanded_acc]
      simp
    rw [hx]
    simp [List.append_assoc]

theorem branchFree_convStack (r : Nat) (g : Graph) (f : Nat) (i : KInit) :
    branchFree (VGG.convStack g r f i) = branchFree g := by
  induction r with
  | zero => simp [VGG.convStack]
  | succ k ih => simp [VGG.convStack, branchFree, ih]

theorem branchFree_group (g : Graph) (r f : Nat) :
    branchFree (VGG.group g r f none) = branchFree g := by
  simp [VGG.group, branchFree, branchFree_convStack]

theorem branchFree_learner (blocks : List (Nat × Nat)) (g : Graph) :
    branchFree (VGG.learner g blocks) = branchFree g := by
  induction blocks generalizing g with
  | nil => simp [VGG.learner]
  | cons p rest ih =>
    simp only [VGG.learner, List.foldl_cons] at ih ⊢
    rw [ih, branchFree_group]

/-! Shape of the learner over each variant's stage table. -/

theorem stagesSem16_ok (h w : Nat) (hh : 32 ≤ h) (hw : 32 ≤ w) :
    stagesSem (VGG.groupsTable 16) h w 64 =
      .ok (.t3 (h / 2 / 2 / 2 / 2 / 2) (w / 2 / 2 / 2 / 2 / 2) 512) := by
  simp only [VGG.groupsTable, stagesSem]
  rw [if_pos (by omega : 2 ≤ h ∧ 2 ≤ w)]
  rw [if_pos (by omega : 2 ≤ h / 2 ∧ 2 ≤ w / 2)]
  rw [if_pos (by omega : 2 ≤ h / 2 / 2 ∧ 2 ≤ w / 2 / 2)]
  rw [if_pos (by omega : 2 ≤ h / 2 / 2 / 2 ∧ 2 ≤ w / 2 / 2 / 2)]
  rw [if_pos (by omega : 2 ≤ h / 2 / 2 / 2 / 2 ∧ 2 ≤ w / 2 / 2 / 2 / 2)]
  simp

theorem stagesSem19_ok (h w : Nat) (hh : 32 ≤ h) (hw : 32 ≤ w) :
    stagesSem (VGG.groupsTable 19) h w 64 =
      .ok (.t3 (h / 2 / 2 / 2 / 2 / 2) (w / 2 / 2 / 2 / 2 / 2) 256) := by
  simp only [VGG.groupsTable, stagesSem]
  rw [if_pos (by omega : 2 ≤ h ∧ 2 ≤ w)]
  rw [if_pos (by omega : 2 ≤ h / 2 ∧ 2 ≤ w / 2)]
  rw [if_pos (by omega : 2 ≤ h / 2 / 2 ∧ 2 ≤ w / 2 / 2)]
  rw [if_pos (by omega : 2 ≤ h / 2 / 2 / 2 ∧ 2 ≤ w / 2 / 2 / 2)]
  rw [if_pos (by omega : 2 ≤ h / 2 / 2 / 2 / 2 ∧ 2 ≤ w / 2 / 2 / 2 / 2)]
  simp

theorem stagesSem16_err (h w : Nat) (hb : h < 32 ∨ w < 32) :
    stagesSem (VGG.groupsTable 16) h w 64 = .error .negDimPool := by
  simp only [VGG.groupsTable, stagesSem]
  by_cases c1 : 2 ≤ h ∧ 2 ≤ w
  · rw [if_pos c1]
    by_cases c2 : 2 ≤ h / 2 ∧ 2 ≤ w / 2
    · rw [if_pos c2]
      by_cases c3 : 2 ≤ h / 2 / 2 ∧ 2 ≤ w / 2 / 2
      · rw [if_pos c3]
        by_cases c4 : 2 ≤ h / 2 / 2 / 2 ∧ 2 ≤ w / 2 / 2 / 2
        · rw [if_pos c4]
          rw [if_neg (by omega)]
        · rw [if_neg c4]
      · rw [if_neg c3]
    · rw [if_neg c2]
  · rw [if_neg c1]

theorem stagesSem19_err (h w : Nat) (hb : h < 32 ∨ w < 32) :
    stagesSem (VGG.groupsTable 19) h w 64 = .error .negDimPool := by
  simp only [VGG.groupsTable, stagesSem]
  by_cases c1 : 2 ≤ h ∧ 2 ≤ w
  · rw [if_pos c1]
    by_cases c2 : 2 ≤ h / 2 ∧ 2 ≤ w / 2
    · rw [if_pos c2]
      by_cases c3 : 2 ≤ h / 2 / 2 ∧ 2 ≤ w / 2 / 2
      · rw [if_pos c3]
        by_cases c4 : 2 ≤ h / 2 / 2 / 2 ∧ 2 ≤ w / 2 / 2 / 2
        · rw [if_pos c4]
          rw [if_neg (by omega)]
        · rw [if_neg c4]
      · rw [if_neg c3]
    · rw [if_neg c2]
  · rw [if_neg c1]

/-- Extract the model from a successful VGG construction. -/
def okModel (e : Except VGG.BuildFail KModel) : KModel :=
  match e with
  | .ok m => m
  | .error _ => ⟨.input 0 0 0, .input 0 0 0⟩

/-- Whether a construction attempt produced a model. -/
def builtOk (e : Except VGG.BuildFail KModel) : Bool :=
  match e with
  | .ok _ => true
  | .error _ => false

/-! The claims. -/

/-- C1: set-then-get through the `model` property round-trips for the VGG
builder, but NOT for the Xception builder: the Xception setter's body is
`return self._model`, which never assigns the new value, so writing `m` and
reading back returns the originally stored model.  The first conjunct shows
the VGG round-trip; the second shows the Xception setter leaves the instance
unchanged for every write; the third evaluates the code at a failing input
(a freshly constructed Xception instance, writing `None`): the read-back is
not the written value. -/
theorem c1_model_roundtrip_xception_bug :
    (∀ (o : VGGObj) (m : Option KModel), (o.model_set m).model_get = m)
    ∧ (∀ (o : XceptionObj) (m : Option KModel), (o.model_set m).model_get = o.model_get)
    ∧ ((XceptionObj.new (229, 229, 3) 1000).model_set none |>.model_get) ≠ none := by
  refine ⟨fun o m => rfl, fun o m => rfl, ?_⟩
  simp [XceptionObj.new, XceptionObj.model_set, XceptionObj.model_get]

/-- C2 counterexample: in the exit flow built on the default input, the main
branch of the residual block carries exactly two separable convolutions
before the additive merge — not four as claimed. -/
theorem c2_counterexample_two_seps_before_merge :
    ((firstAddChildren (Xception.exitFlow (.input 229 229 3) 1000 none)).map
        (fun p => sepsToAdd p.1)) = some 2
    ∧ (2 : Nat) ≠ 4 := ⟨rfl, by decide⟩

/-- C2 (amended): in the Xception exit flow the residual block has
asymmetric branch depth with TWO separable convolutions on the main branch
(followed by a max pool) before the additive merge, one projection
convolution on the shortcut branch, and the merge followed by two more
separable convolutions, then global average pooling and a final dense
softmax classification layer. -/
theorem c2_exitflow_structure : ∀ (h w c nc : Nat) (iw : KInit),
    layersToAdd (Xception.exitFlow (.input h w c) nc (some iw)) =
      [.dense nc .softmax iw, .globalAvgPool2d,
       .relu, .batchNorm, .sepConv2d 2048 3 3 1 1 .same iw,
       .relu, .batchNorm, .sepConv2d 1556 3 3 1 1 .same iw]
    ∧ ∃ main sc,
        firstAddChildren (Xception.exitFlow (.input h w c) nc (some iw)) = some (main, sc)
        ∧ sepsToAdd main = 2 ∧ convsToAdd main = 0
        ∧ convsToAdd sc = 1 ∧ sepsToAdd sc = 0 := by
  intro h w c nc iw
  exact ⟨rfl, _, _, rfl, rfl, rfl, rfl, rfl⟩

/-- C3: constructing VGG with a selector outside 16/19 fails with the
invalid-configuration error before any graph node is constructed (the node
counter of the instrumented constructor is untouched, so not even the input
placeholder exists and no partial state remains), while selectors 16 and 19
construct a model without failure. -/
theorem c3_invalid_selector : ∀ (n h w c nc k : Nat),
    (¬(n = 16 ∨ n = 19) →
      VGG.initCounted n (h, w, c) nc k = (.error .invalidNLayers, k))
    ∧ ((n = 16 ∨ n = 19) → ∃ m, VGG.initModel n (h, w, c) nc = .ok m)
    ∧ (builtOk (VGG.initModel n (h, w, c) nc) = true ↔ (n = 16 ∨ n = 19)) := by
  intro n h w c nc k
  have hmem : n ∈ ([16, 19] : List Nat) ↔ (n = 16 ∨ n = 19) := by simp
  refine ⟨?_, ?_, ?_⟩
  · intro hn
    have hx : n ∉ ([16, 19] : List Nat) := fun hmm => hn (hmem.mp hmm)
    simp [VGG.initCounted, hx]
  · intro hn
    have hx : ¬ n ∉ ([16, 19] : List Nat) := fun hmm => hmm (hmem.mpr hn)
    simp only [VGG.initModel, if_neg hx]
    exact ⟨_, rfl⟩
  · constructor
    · intro hb
      by_contra hn
      have hx : n ∉ ([16, 19] : List Nat) := fun hmm => hn (hmem.mp hmm)
      simp [VGG.initModel, hx, builtOk] at hb
    · intro hn
      rcases hn with rfl | rfl <;> rfl

/-- C3 witness: at selector 20 the instrumented constructor fails leaving
the node count at its initial value 7, and at selector 16 a model is
produced. -/
theorem c3_witness :
    VGG.initCounted 20 (224, 224, 3) 1000 7 = (.error .invalidNLayers, 7)
    ∧ ∃ m, VGG.initModel 16 (224, 224, 3) 1000 = .ok m :=
  ⟨(c3_invalid_selector 20 224 224 3 1000 7).1 (by decide),
   (c3_invalid_selector 16 224 224 3 1000 7).2.1 (Or.inl rfl)⟩

/-- C4: in every projection block the two merge operands have equal shape,
and in every identity residual block whose width parameter equals the input
channel count (the stated precondition, here instantiated as `n_filters = c`)
the two merge operands have equal shape. -/
theorem c4_merge_operand_shapes : ∀ (h w c n : Nat) (iw : Option KInit),
    mergeShapeEq (Xception.projection_block (.input h w c) n iw)
    ∧ mergeShapeEq (Xception.residual_block (.input h w c) c iw) := by
  intro h w c n iw
  constructor
  · simp only [Xception.projection_block, mergeShapeEq, Graph.shape, exbind_ok,
      sep33_same, bn_shape, relu_shape, pool33_s2_same, conv11_s2_same]
  · simp only [Xception.residual_block, mergeShapeEq, Graph.shape, exbind_ok,
      sep33_same, bn_shape, relu_shape]

/-- C5: the entry flow applies the stem and then exactly one projection
block per width-list entry in order (one merge per entry, and the separable
convolution widths along the spine are each entry's width twice, last block
outermost); the middle flow applies exactly one identity block per entry in
order (three separable convolutions per entry); and the constructor supplies
entry widths `[128, 256, 728]` and a middle list of eight entries equal to
728, so the full model spine carries 12 merges and the corresponding width
sequence. -/
theorem c5_flow_blocks : ∀ (g : Graph) (blocks : List Nat) (iw : KInit) (h w c nc : Nat),
    addCount (Xception.entryFlow g blocks (some iw)) = blocks.length + addCount g
    ∧ sepWidths (Xception.entryFlow g blocks (some iw)) =
        repWidths 2 blocks.reverse ++ sepWidths g
    ∧ addCount (Xception.middleFlow g blocks (some iw)) = blocks.length + addCount g
    ∧ sepWidths (Xception.middleFlow g blocks (some iw)) =
        repWidths 3 blocks.reverse ++ sepWidths g
    ∧ Xception.initModel (h, w, c) nc =
        ⟨.input h w c,
         Xception.exitFlow
           (Xception.middleFlow
             (Xception.entryFlow (.input h w c) [128, 256, 728] none)
             (List.replicate 8 728) none)
           nc none⟩
    ∧ addCount (Xception.initModel (h, w, c) nc).outputs = 12
    ∧ sepWidths (Xception.initModel (h, w, c) nc).outputs =
        [2048, 1556, 1024] ++ List.replicate 27 728 ++ [256, 256, 128, 128] := by
  intro g blocks iw h w c nc
  refine ⟨?_, ?_, ?_, ?_, rfl, rfl, rfl⟩
  · simp only [Xception.entryFlow, Option.getD, addCount_projFold, addCount_entryStem]
  · simp only [Xception.entryFlow, Option.getD, sepWidths_projFold, sepWidths_entryStem]
  · simp only [Xception.middleFlow, Option.getD, addCount_resFold]
  · simp only [Xception.middleFlow, Option.getD, sepWidths_resFold]

/-- C6: for every valid VGG construction the final layer of the model is a
dense layer of width `n_classes` with softmax activation, and the concrete
VGG(16) on input shape (224, 224, 3) with 1000 classes has output shape
`(None, 1000)`. -/
theorem c6_final_dense_softmax : ∀ (h w c nc : Nat),
    (VGG.initModel 16 (h, w, c) nc).map (fun m => headLayer m.outputs) =
      .ok (some (.dense nc .softmax .glorot_uniform))
    ∧ (VGG.initModel 19 (h, w, c) nc).map (fun m => headLayer m.outputs) =
      .ok (some (.dense nc .softmax .glorot_uniform))
    ∧ (VGG.initModel 16 (224, 224, 3) 1000).map (fun m => Graph.shape m.outputs) =
      .ok (.ok (.t1 1000)) := by
  intro h w c nc
  exact ⟨rfl, rfl, rfl⟩

/-- C7: the learner applies, for each `(repeat, width)` stage of its block
list in order, exactly `repeat` same-padded stride-1 3x3 convolutions of
that width followed by one 2x2 stride-2 max pool (`stagesExpanded` lists the
spine outermost-first, so the stages appear reversed); the whole VGG graph
is branch-free (strictly sequential); and the expansions of the 16- and
19-layer tables are exactly the documented pairs. -/
theorem c7_learner_stages : ∀ (g : Graph) (blocks : List (Nat × Nat)) (h w c nc : Nat),
    layersOf (VGG.learner g blocks) = stagesExpanded blocks ++ layersOf g
    ∧ branchFree (VGG.learner g blocks) = branchFree g
    ∧ stagesExpanded (VGG.groupsTable 16) =
        stageLayers (3, 512) ++ stageLayers (3, 512) ++ stageLayers (3, 256) ++
          stageLayers (2, 128) ++ stageLayers (1, 64)
    ∧ stagesExpanded (VGG.groupsTable 19) =
        stageLayers (4, 256) ++ stageLayers (4, 256) ++ stageLayers (4, 256) ++
          stageLayers (2, 128) ++ stageLayers (1, 64)
    ∧ (VGG.initModel 16 (h, w, c) nc).map (fun m => branchFree m.outputs) = .ok true
    ∧ (VGG.initModel 19 (h, w, c) nc).map (fun m => branchFree m.outputs) = .ok true := by
  intro g blocks h w c nc
  refine ⟨layersOf_learner blocks g, branchFree_learner blocks g, rfl, rfl, ?_, ?_⟩
  · simp only [VGG.initModel]
    rw [if_neg (by decide)]
    simp only [Except.map, VGG.classifier, branchFree, branchFree_learner, VGG.stem]
  · simp only [VGG.initModel]
    rw [if_neg (by decide)]
    simp only [Except.map, VGG.classifier, branchFree, branchFree_learner, VGG.stem]

/-- C8: construction is deterministic in its parameters: two VGG
constructions with identical parameters that both succeed produce equal
objects (hence structurally identical graphs), and two Xception
constructions with identical parameters produce equal objects. -/
theorem c8_deterministic : ∀ (n h w c nc : Nat) (o1 o2 : VGGObj),
    (VGGObj.new n (h, w, c) nc = .ok o1 → VGGObj.new n (h, w, c) nc = .ok o2 → o1 = o2)
    ∧ XceptionObj.new (h, w, c) nc = XceptionObj.new (h, w, c) nc := by
  intro n h w c nc o1 o2
  refine ⟨fun h1 h2 => ?_, rfl⟩
  rw [h1] at h2
  exact Except.ok.inj h2

/-- C8 witness: the determinism theorem applied to the concrete
construction VGG(16, (32, 32, 3), 10). -/
theorem c8_witness :
    okOr (VGGObj.new 16 (32, 32, 3) 10) = okOr (VGGObj.new 16 (32, 32, 3) 10) :=
  (c8_deterministic 16 32 32 3 10
      (okOr (VGGObj.new 16 (32, 32, 3) 10)) (okOr (VGGObj.new 16 (32, 32, 3) 10))).1
    rfl rfl

/-- C9: the VGG graph passes shape checking exactly on inputs whose spatial
extents are both at least 32: with `h, w ≥ 32` (and a positive channel
count) the model's output shape is `(None, n_classes)` for both variants,
while with either extent below 32 shape checking fails with the
negative-dimension error of a valid-padded 2x2 max pool, i.e. in one of the
five pooling stages (`BErr.negDimPool` is produced only by `maxPool2d`). -/
theorem c9_spatial_bound : ∀ (h w c nc : Nat),
    (32 ≤ h → 32 ≤ w → 1 ≤ c →
      ∀ m, VGG.initModel 16 (h, w, c) nc = .ok m → Graph.shape m.outputs = .ok (.t1 nc))
    ∧ (32 ≤ h → 32 ≤ w → 1 ≤ c →
      ∀ m, VGG.initModel 19 (h, w, c) nc = .ok m → Graph.shape m.outputs = .ok (.t1 nc))
    ∧ ((h < 32 ∨ w < 32) →
      ∀ m, VGG.initModel 16 (h, w, c) nc = .ok m →
        Graph.shape m.outputs = .error .negDimPool)
    ∧ ((h < 32 ∨ w < 32) →
      ∀ m, VGG.initModel 19 (h, w, c) nc = .ok m →
        Graph.shape m.outputs = .error .negDimPool) := by
  intro h w c nc
  have h16 : VGG.initModel 16 (h, w, c) nc =
      .ok ⟨.input h w c,
           VGG.classifier (VGG.learner (VGG.stem (.input h w c)) (VGG.groupsTable 16)) nc⟩ := by
    simp only [VGG.initModel]
    rw [if_neg (by decide)]
  have h19 : VGG.initModel 19 (h, w, c) nc =
      .ok ⟨.input h w c,
           VGG.classifier (VGG.learner (VGG.stem (.input h w c)) (VGG.groupsTable 19)) nc⟩ := by
    simp only [VGG.initModel]
    rw [if_neg (by decide)]
  refine ⟨?_, ?_, ?_, ?_⟩
  · intro hh hw hc m hm
    rw [h16] at hm
    obtain rfl := (Except.ok.inj hm).symm
    have hl := learner_shape (VGG.groupsTable 16) _ h w 64 (stem_shape h w c)
    rw [stagesSem16_ok h w hh hw] at hl
    exact classifier_ok _ nc _ _ _ hl
  · intro hh hw hc m hm
    rw [h19] at hm
    obtain rfl := (Except.ok.inj hm).symm
    have hl := learner_shape (VGG.groupsTable 19) _ h w 64 (stem_shape h w c)
    rw [stagesSem19_ok h w hh hw] at hl
    exact classifier_ok _ nc _ _ _ hl
  · intro hb m hm
    rw [h16] at hm
    obtain rfl := (Except.ok.inj hm).symm
    have hl := learner_shape (VGG.groupsTable 16) _ h w 64 (stem_shape h w c)
    rw [stagesSem16_err h w hb] at hl
    exact classifier_err _ nc _ hl
  · intro hb m hm
    rw [h19] at hm
    obtain rfl := (Except.ok.inj hm).symm
    have hl := learner_shape (VGG.groupsTable 19) _ h w 64 (stem_shape h w c)
    rw [stagesSem19_err h w hb] at hl
    exact classifier_err _ nc _ hl

/-- C9 witness: the bound theorem applied at the concrete shapes
(224, 224, 3), which passes, and (16, 224, 3), which fails in a pooling
stage. -/
theorem c9_witness :
    Graph.shape (okModel (VGG.initModel 16 (224, 224, 3) 1000)).outputs = .ok (.t1 1000)
    ∧ Graph.shape (okModel (VGG.initModel 16 (16, 224, 3) 1000)).outputs =
        .error .negDimPool :=
  ⟨(c9_spatial_bound 224 224 3 1000).1 (by decide) (by decide) (by decide) _ rfl,
   (c9_spatial_bound 16 224 3 1000).2.2.1 (Or.inl (by decide)) _ rfl⟩

/-- C10: on any input of shape `(h, w, c)` a projection block of width
`n_filters` outputs shape `(ceil(h/2), ceil(w/2), n_filters)` — over the
naturals `(h + 1) / 2` is the ceiling of half — halving both spatial extents
and setting the channel count to `n_filters` regardless of `c`. -/
theorem c10_projection_block_shape : ∀ (h w c n : Nat) (iw : Option KInit),
    Graph.shape (Xception.projection_block (.input h w c) n iw) =
      .ok (.t3 ((h + 1) / 2) ((w + 1) / 2) n) := by
  intro h w c n iw
  simp only [Xception.projection_block, Graph.shape, exbind_ok,
    sep33_same, bn_shape, relu_shape, pool33_s2_same, conv11_s2_same]
  simp
